import Mathlib

/-!
Shallow embedding of the reporting service in
`src/src/reports/reports.service.ts` of the `nestjs9-task-manager-sequelize`
repository, together with proofs about its four public operations.

Timestamps (`createdAt`, `completionDateTime`, `dueDateTime`, "now") are
modelled as integers counting milliseconds since the Unix epoch, the
representation underlying JavaScript `Date` and `moment`.  `moment().diff(x,
'days')` truncates the millisecond difference towards zero, which is `Int.div`;
JavaScript `Math.floor` of a real quotient of integers is `Int.fdiv`.
-/

namespace TaskManager

/-- A user account (`src/auth/users.model`): the reporting code reads `id`
and `createdAt` (milliseconds since the Unix epoch). -/
structure User where
  id : Nat
  createdAt : Int
  deriving Repr, DecidableEq

/-- A to-do list (`src/todolist/todolist.model`): one per user, with an `id`
and the owning user's id. -/
structure TodoList where
  id : Nat
  userId : Nat
  deriving Repr, DecidableEq

/-- A task (`src/tasks/tasks.model`): belongs to one todo list; the reporting
code reads `todoListId`, `completionStatus`, the nullable `completionDateTime`
and `dueDateTime`. -/
structure Task where
  todoListId : Nat
  completionStatus : Bool
  completionDateTime : Option Int
  dueDateTime : Int
  deriving Repr, DecidableEq

/-- The relational store the sequelize models query: the rows of the
`TodoList` and `Task` tables, in table order. -/
structure Store where
  todoLists : List TodoList
  tasks : List Task
  deriving Repr

/-- Return type of `getTaskCount` (`reports.interfaces.ts`).  Fields are
integers, as all JavaScript numbers involved are. -/
structure ITasksCount where
  totalTasks : Int
  completedTasks : Int
  remainingTasks : Int
  deriving Repr, DecidableEq

def msPerDay : Int := 86400000

/-- `getTodoListByUser`: `todoListModel.findOne({ where: { userId } })` —
the first `TodoList` row whose `userId` matches, if any. -/
def getTodoListByUser (s : Store) (userId : Nat) : Option TodoList :=
  s.todoLists.find? (fun tl => tl.userId == userId)

/-- The rows of `taskModel` whose `todoListId` equals `listId` (the `where`
clause shared by all four operations). -/
def tasksOfList (s : Store) (listId : Nat) : List Task :=
  s.tasks.filter (fun t => t.todoListId == listId)

/-- `taskModel` rows with `todoListId = listId` and `completionStatus: true`. -/
def completedTasksOfList (s : Store) (listId : Nat) : List Task :=
  (tasksOfList s listId).filter (fun t => t.completionStatus)

/-- `getTaskCount`: all-zero record when the user has no list; otherwise
`findAndCountAll` on the list's tasks, the completed ones counted by a
filter, and `remainingTasks = totalTasks.count - completedTasks`. -/
def getTaskCount (s : Store) (u : User) : ITasksCount :=
  match getTodoListByUser s u.id with
  | none => { totalTasks := 0, completedTasks := 0, remainingTasks := 0 }
  | some tl =>
      let rows := tasksOfList s tl.id
      let completedTasks := (rows.filter (fun t => t.completionStatus)).length
      { totalTasks := rows.length
        completedTasks := completedTasks
        remainingTasks := (rows.length : Int) - completedTasks }

/-- `moment(now).diff(createdAt, 'days')`: the millisecond difference divided
by 86400000 and truncated towards zero (moment's `absFloor`). -/
def daysDiff (now createdAt : Int) : Int := Int.tdiv (now - createdAt) msPerDay

/-- `getAvgTasksPerDay`: 0 with no list; 0 when the day difference is exactly
0; otherwise `Math.floor(completedTasks / daysSinceAccountCreation)`. -/
def getAvgTasksPerDay (s : Store) (now : Int) (u : User) : Int :=
  match getTodoListByUser s u.id with
  | none => 0
  | some tl =>
      let daysSinceAccountCreation := daysDiff now u.createdAt
      if daysSinceAccountCreation = 0 then 0
      else
        let completedTasks := (completedTasksOfList s tl.id).length
        Int.fdiv completedTasks daysSinceAccountCreation

/-- The `where` clause of `getTasksNotCompletedOnTime`:
`completionStatus: true` and `completionDateTime > dueDateTime` (an SQL
comparison, which is not satisfied when `completionDateTime` is NULL). -/
def completedLate (t : Task) : Bool :=
  t.completionStatus &&
    (match t.completionDateTime with
     | some c => decide (t.dueDateTime < c)
     | none => false)

/-- `getTasksNotCompletedOnTime`: 0 with no list; otherwise the count of the
list's tasks satisfying `completedLate`. -/
def getTasksNotCompletedOnTime (s : Store) (u : User) : Nat :=
  match getTodoListByUser s u.id with
  | none => 0
  | some tl => ((tasksOfList s tl.id).filter completedLate).length

/-- A decimal digit character; the argument is reduced mod 10. -/
def digitChar (n : Nat) : Char := Char.ofNat (48 + n % 10)

/-- Two zero-padded decimal digits (`MM` / `DD` in a moment format string;
exact for values up to 99, which covers months and days). -/
def pad2 (n : Nat) : List Char := [digitChar (n / 10), digitChar n]

/-- Four zero-padded decimal digits (`YYYY` in a moment format string; exact
for years 0–9999). -/
def pad4 (n : Nat) : List Char :=
  [digitChar (n / 1000), digitChar (n / 100), digitChar (n / 10), digitChar n]

/-- Days-since-epoch to civil (year, month, day), proleptic Gregorian: the
calendar computation `moment(ts).format` performs, for a UTC setting (the
source pins no timezone). -/
def civilFromDays (z0 : Int) : Int × Nat × Nat :=
  let z := z0 + 719468
  let era := Int.fdiv z 146097
  let doe : Nat := (z - era * 146097).toNat
  let yoe : Nat := (doe - doe / 1460 + doe / 36524 - doe / 146096) / 365
  let y : Int := (yoe : Int) + era * 400
  let doy : Nat := doe - (365 * yoe + yoe / 4 - yoe / 100)
  let mp : Nat := (5 * doy + 2) / 153
  let d : Nat := doy - (153 * mp + 2) / 5 + 1
  let m : Nat := if mp < 10 then mp + 3 else mp - 9
  (if m ≤ 2 then y + 1 else y, m, d)

/-- `YYYY-MM-DD` rendering of a civil date (years 0–9999). -/
def formatYMD (y : Int) (m d : Nat) : String :=
  ⟨pad4 y.toNat ++ '-' :: (pad2 m ++ '-' :: pad2 d)⟩

/-- `moment(ts).format('YYYY-MM-DD')` for a millisecond timestamp: only the
civil day of `ts` matters. -/
def dateKey (ts : Int) : String :=
  let c := civilFromDays (Int.fdiv ts msPerDay)
  formatYMD c.1 c.2.1 c.2.2

/-- `moment(task.completionDateTime).format('YYYY-MM-DD')`: a NULL column
value makes an invalid moment, which formats as `"Invalid date"`. -/
def momentFormatYMD : Option Int → String
  | some ts => dateKey ts
  | none => "Invalid date"

/-- One step of the `reduce` grouping: `grouped[date] = (grouped[date] || 0) + 1`
on a JavaScript object whose keys are non-index strings, so existing keys keep
their position and a new key is appended (JS insertion order). -/
def addToGroup : List (String × Nat) → String → List (String × Nat)
  | [], k => [(k, 1)]
  | (k', c) :: rest, k =>
      if k' = k then (k', c + 1) :: rest else (k', c) :: addToGroup rest k

/-- The body of the `tasks.reduce` grouping callback: add one task's date key
to the accumulated groups. -/
def dateGroupStep (g : List (String × Nat)) (t : Task) : List (String × Nat) :=
  addToGroup g (momentFormatYMD t.completionDateTime)

/-- The `tasks.reduce` grouping of tasks by the date part of their
`completionDateTime`, an insertion-ordered association list. -/
def groupByDate (tasks : List Task) : List (String × Nat) :=
  tasks.foldl dateGroupStep []

/-- The `for (const [date, count] of Object.entries(tasksByDate))` loop:
starting from `maxDate = null, maxCount = 0`, update both only when
`count > maxCount` (strictly). -/
def maxScanGo : Option String → Nat → List (String × Nat) → Option String × Nat
  | maxDate, maxCount, [] => (maxDate, maxCount)
  | maxDate, maxCount, (date, count) :: rest =>
      if maxCount < count then maxScanGo (some date) count rest
      else maxScanGo maxDate maxCount rest

/-- `getDateWithMostCompletedTasks`: null with no list; otherwise fetch the
list's completed tasks, group them by completion date, and scan the groups
for the maximal count. -/
def getDateWithMostCompletedTasks (s : Store) (u : User) : Option String :=
  match getTodoListByUser s u.id with
  | none => none
  | some tl => (maxScanGo none 0 (groupByDate (completedTasksOfList s tl.id))).1

/-- The maximum of the counts of a grouped association list (0 when empty). -/
def maxCountOf (l : List (String × Nat)) : Nat := l.foldr (fun e m => max e.2 m) 0

/-- Shape check for a `YYYY-MM-DD` date string: ten characters, digits except
for dashes at positions 4 and 7. -/
def isYMDString (s : String) : Bool :=
  match s.data with
  | [y1, y2, y3, y4, h1, mo1, mo2, h2, d1, d2] =>
      y1.isDigit && y2.isDigit && y3.isDigit && y4.isDigit &&
      h1 == '-' && mo1.isDigit && mo2.isDigit && h2 == '-' &&
      d1.isDigit && d2.isDigit
  | _ => false

/-! Concrete fixtures used by the witness theorems below. -/

def mkTask (listId : Nat) (status : Bool) (comp : Option Int) (due : Int) : Task :=
  { todoListId := listId, completionStatus := status
    completionDateTime := comp, dueDateTime := due }

def w1User : User := { id := 1, createdAt := 0 }

def w1Store : Store :=
  { todoLists := [{ id := 1, userId := 1 }]
    tasks := [mkTask 1 true (some 100) 200, mkTask 1 true (some 300) 200,
              mkTask 1 false none 400, mkTask 9 true (some 100) 200] }

def w2User : User := { id := 7, createdAt := 0 }

def w2Store : Store :=
  { todoLists := [{ id := 1, userId := 3 }]
    tasks := [mkTask 1 true (some 100) 200] }

def w3User : User := { id := 1, createdAt := 0 }

def w3Store : Store :=
  { todoLists := [{ id := 1, userId := 1 }]
    tasks := [mkTask 1 true (some 1) 9, mkTask 1 true (some 2) 9,
              mkTask 1 true (some 3) 9, mkTask 1 true (some 4) 9,
              mkTask 1 true (some 5) 9, mkTask 1 true (some 6) 9,
              mkTask 1 true (some 7) 9, mkTask 1 false none 9] }

def w4User : User := { id := 1, createdAt := 5000 }

def w4Store : Store :=
  { todoLists := [{ id := 1, userId := 1 }]
    tasks := [mkTask 1 true (some 1) 9, mkTask 1 true (some 2) 9,
              mkTask 1 true (some 3) 9] }

def w5User : User := { id := 1, createdAt := 0 }

def w5Store : Store :=
  { todoLists := [{ id := 1, userId := 1 }]
    tasks := [mkTask 1 true (some 20) 10, mkTask 1 true (some 10) 10,
              mkTask 1 true (some 5) 10, mkTask 1 false none 0] }

def w6User : User := { id := 1, createdAt := 0 }

def w6Store : Store :=
  { todoLists := [{ id := 1, userId := 1 }]
    tasks := [mkTask 1 true (some 1704153600000) 0,
              mkTask 1 true (some 1704067200000) 0,
              mkTask 1 true (some 1704157200000) 0,
              mkTask 1 true (some 1704070800000) 0] }

def w7User : User := { id := 1, createdAt := 0 }

def w7Store : Store :=
  { todoLists := [{ id := 1, userId := 1 }]
    tasks := [mkTask 1 false none 100, mkTask 1 false none 200] }

def w8User : User := { id := 1, createdAt := 0 }

def w8Store : Store :=
  { todoLists := [{ id := 1, userId := 1 }]
    tasks := [mkTask 1 true (some 1704070800000) 0] }

def negUser : User := { id := 1, createdAt := 172800000 }

def negStore : Store :=
  { todoLists := [{ id := 1, userId := 1 }]
    tasks := [mkTask 1 true (some 0) 0] }

-- sanity checks on the time model and the calendar computation
example : Int.tdiv (-172800000) 86400000 = -2 := by decide
example : Int.tdiv (-1) 86400000 = 0 := by decide
example : Int.fdiv 1 (-2) = -1 := by decide
example : Int.fdiv 7 2 = 3 := by decide
example : civilFromDays 0 = (1970, 1, 1) := by decide
example : civilFromDays 19723 = (2024, 1, 1) := by decide
example : civilFromDays (-1) = (1969, 12, 31) := by decide
example : dateKey 1704067200000 = "2024-01-01" := by decide
example : dateKey (1704067200000 + 86399999) = "2024-01-01" := by decide

/-- Pointwise form of the `getTasksNotCompletedOnTime` filter. -/
theorem completedLate_eq (t : Task) :
    completedLate t =
      (t.completionStatus &&
        t.completionDateTime.any (fun c => t.dueDateTime < c)) := by
  cases h : t.completionDateTime <;> simp [completedLate, h, Option.any]

/-- C1: for a user whose todo list holds N tasks of which K are completed,
`getTaskCount` returns totalTasks = N, completedTasks = K and
remainingTasks = N - K, and K never exceeds N. -/
theorem getTaskCount_counts (s : Store) (u : User) (tl : TodoList)
    (h : getTodoListByUser s u.id = some tl) :
    getTaskCount s u =
      { totalTasks := ((tasksOfList s tl.id).length : Int)
        completedTasks := ((completedTasksOfList s tl.id).length : Int)
        remainingTasks := ((tasksOfList s tl.id).length : Int)
          - ((completedTasksOfList s tl.id).length : Int) } ∧
    (completedTasksOfList s tl.id).length ≤ (tasksOfList s tl.id).length := by
  refine ⟨?_, List.length_filter_le _ _⟩
  simp [getTaskCount, h, completedTasksOfList]

/-- C1 witness: a store with three tasks on the user's list (two completed)
and one task on another list. -/
theorem getTaskCount_counts_witness :
    getTaskCount w1Store w1User =
      { totalTasks := 3, completedTasks := 2, remainingTasks := 1 } := by
  have h := getTaskCount_counts w1Store w1User { id := 1, userId := 1 } (by decide)
  rw [h.1]
  decide

/-- C2: a user with no todo list gets the zero/neutral result from all four
operations: all-zero counts, 0, 0 and null. -/
theorem noList_neutral (s : Store) (now : Int) (u : User)
    (h : getTodoListByUser s u.id = none) :
    getTaskCount s u = { totalTasks := 0, completedTasks := 0, remainingTasks := 0 } ∧
    getAvgTasksPerDay s now u = 0 ∧
    getTasksNotCompletedOnTime s u = 0 ∧
    getDateWithMostCompletedTasks s u = none := by
  refine ⟨?_, ?_, ?_, ?_⟩ <;>
    simp [getTaskCount, getAvgTasksPerDay, getTasksNotCompletedOnTime,
      getDateWithMostCompletedTasks, h]

/-- C2 witness: a store whose only list belongs to someone else. -/
theorem noList_neutral_witness :
    getTaskCount w2Store w2User = { totalTasks := 0, completedTasks := 0, remainingTasks := 0 } ∧
    getAvgTasksPerDay w2Store 0 w2User = 0 ∧
    getTasksNotCompletedOnTime w2Store w2User = 0 ∧
    getDateWithMostCompletedTasks w2Store w2User = none :=
  noList_neutral w2Store 0 w2User (by decide)

/-- C3: with a list and a strictly positive whole-day difference, the average
is the floored quotient of the completed-task count by that difference. -/
theorem getAvgTasksPerDay_floor (s : Store) (now : Int) (u : User) (tl : TodoList)
    (h : getTodoListByUser s u.id = some tl)
    (hd : 0 < daysDiff now u.createdAt) :
    getAvgTasksPerDay s now u =
      Int.fdiv ((completedTasksOfList s tl.id).length : Int)
        (daysDiff now u.createdAt) := by
  unfold getAvgTasksPerDay
  rw [h]
  simp only
  rw [if_neg (by omega)]

/-- C3 witness: 7 completed tasks, account created exactly two days before
now, giving floor (7 / 2) = 3. -/
theorem getAvgTasksPerDay_floor_witness :
    getAvgTasksPerDay w3Store 172800000 w3User = 3 := by
  have h := getAvgTasksPerDay_floor w3Store 172800000 w3User
    { id := 1, userId := 1 } (by decide) (by decide)
  rw [h]
  decide

/-- C4: when zero whole days have elapsed since account creation, the average
is 0 no matter how many completed tasks the list has. -/
theorem getAvgTasksPerDay_zeroDays (s : Store) (now : Int) (u : User) (tl : TodoList)
    (h : getTodoListByUser s u.id = some tl)
    (hd : daysDiff now u.createdAt = 0) :
    getAvgTasksPerDay s now u = 0 := by
  unfold getAvgTasksPerDay
  rw [h]
  simp [hd]

/-- C4 witness: account created at the current instant, three completed
tasks, result 0. -/
theorem getAvgTasksPerDay_zeroDays_witness :
    getAvgTasksPerDay w4Store 5000 w4User = 0 :=
  getAvgTasksPerDay_zeroDays w4Store 5000 w4User { id := 1, userId := 1 }
    (by decide) (by decide)

/-- C5: the overdue-completion count is exactly the number of the list's
tasks that are completed with completionDateTime strictly after dueDateTime;
an incomplete task is never counted, and a completed task finished at or
before its deadline is never counted. -/
theorem getTasksNotCompletedOnTime_spec (s : Store) (u : User) (tl : TodoList)
    (h : getTodoListByUser s u.id = some tl) :
    getTasksNotCompletedOnTime s u =
      (tasksOfList s tl.id).countP
        (fun t => t.completionStatus &&
          t.completionDateTime.any (fun c => t.dueDateTime < c)) ∧
    (∀ t ∈ tasksOfList s tl.id, t.completionStatus = false → completedLate t = false) ∧
    (∀ t ∈ tasksOfList s tl.id, ∀ c, t.completionDateTime = some c →
      c ≤ t.dueDateTime → completedLate t = false) := by
  refine ⟨?_, ?_, ?_⟩
  · unfold getTasksNotCompletedOnTime
    rw [h]
    have hfun : completedLate = fun t : Task =>
        (t.completionStatus && t.completionDateTime.any (fun c => t.dueDateTime < c)) :=
      funext completedLate_eq
    rw [List.countP_eq_length_filter, ← hfun]
  · intro t _ hstat
    simp [completedLate, hstat]
  · intro t _ c hc hle
    simp [completedLate, hc]
    omega

/-- C5 witness: of four tasks (completed late, completed exactly on time,
completed early, incomplete and overdue) only the first is counted. -/
theorem getTasksNotCompletedOnTime_spec_witness :
    getTasksNotCompletedOnTime w5Store w5User = 1 := by
  have h := getTasksNotCompletedOnTime_spec w5Store w5User
    { id := 1, userId := 1 } (by decide)
  rw [h.1]
  decide

/-- C7: with a list but no completed task at all — pending tasks allowed —
`getDateWithMostCompletedTasks` returns null. -/
theorem getDateWithMostCompletedTasks_empty (s : Store) (u : User) (tl : TodoList)
    (h : getTodoListByUser s u.id = some tl)
    (hc : completedTasksOfList s tl.id = []) :
    getDateWithMostCompletedTasks s u = none := by
  unfold getDateWithMostCompletedTasks
  rw [h]
  simp [hc, groupByDate, maxScanGo]

/-- C7 witness: a list with two pending tasks and no completed one. -/
theorem getDateWithMostCompletedTasks_empty_witness :
    getDateWithMostCompletedTasks w7Store w7User = none :=
  getDateWithMostCompletedTasks_empty w7Store w7User { id := 1, userId := 1 }
    (by decide) (by decide)

/-- C9: in every state, with or without a list, the record returned by
`getTaskCount` satisfies completed + remaining = total and
0 ≤ completed ≤ total (hence remaining ≥ 0). -/
theorem getTaskCount_invariant (s : Store) (u : User) :
    (getTaskCount s u).completedTasks + (getTaskCount s u).remainingTasks
        = (getTaskCount s u).totalTasks ∧
    0 ≤ (getTaskCount s u).completedTasks ∧
    (getTaskCount s u).completedTasks ≤ (getTaskCount s u).totalTasks ∧
    0 ≤ (getTaskCount s u).remainingTasks := by
  unfold getTaskCount
  cases hfind : getTodoListByUser s u.id with
  | none => simp
  | some tl =>
      simp only
      have hle := List.length_filter_le (fun t : Task => t.completionStatus)
        (tasksOfList s tl.id)
      refine ⟨by ring, by positivity, ?_, ?_⟩ <;> omega

theorem maxCountOf_cons (e : String × Nat) (l : List (String × Nat)) :
    maxCountOf (e :: l) = max e.2 (maxCountOf l) := rfl

theorem maxCountOf_le (l : List (String × Nat)) : ∀ e ∈ l, e.2 ≤ maxCountOf l := by
  induction l with
  | nil => simp
  | cons a rest ih =>
      intro e he
      rcases List.mem_cons.mp he with rfl | hmem
      · rw [maxCountOf_cons]
        exact le_max_left _ _
      · rw [maxCountOf_cons]
        exact le_trans (ih e hmem) (le_max_right _ _)

theorem maxCountOf_attained (l : List (String × Nat)) (h : l ≠ []) :
    ∃ e ∈ l, e.2 = maxCountOf l := by
  induction l with
  | nil => exact absurd rfl h
  | cons a rest ih =>
      rcases eq_or_ne rest [] with rfl | hr
      · refine ⟨a, List.mem_cons_self _ _, ?_⟩
        simp [maxCountOf]
      · obtain ⟨e, hmem, heq⟩ := ih hr
        rcases le_total (maxCountOf rest) a.2 with hle | hle
        · refine ⟨a, List.mem_cons_self _ _, ?_⟩
          rw [maxCountOf_cons, max_eq_left hle]
        · refine ⟨e, List.mem_cons_of_mem _ hmem, ?_⟩
          rw [maxCountOf_cons, max_eq_right hle, heq]

theorem maxScanGo_snd (l : List (String × Nat)) :
    ∀ (best : Option String) (bc : Nat),
      (maxScanGo best bc l).2 = max bc (maxCountOf l) := by
  induction l with
  | nil => intro best bc; simp [maxScanGo, maxCountOf]
  | cons a rest ih =>
      intro best bc
      obtain ⟨d, c⟩ := a
      rw [maxCountOf_cons]
      simp only [maxScanGo]
      by_cases hbc : bc < c
      · rw [if_pos hbc, ih]
        exact (max_eq_right (le_trans hbc.le (le_max_left _ _))).symm
      · rw [if_neg hbc, ih, ← max_assoc, max_eq_left (not_lt.mp hbc)]

theorem maxScanGo_fst (l : List (String × Nat)) :
    ∀ (best : Option String) (bc : Nat),
      (maxScanGo best bc l).1 =
        if bc < maxCountOf l then
          (l.find? (fun e => e.2 == maxCountOf l)).map Prod.fst
        else best := by
  induction l with
  | nil => intro best bc; simp [maxScanGo, maxCountOf]
  | cons a rest ih =>
      intro best bc
      obtain ⟨d, c⟩ := a
      rw [maxCountOf_cons]
      simp only [maxScanGo]
      by_cases hbc : bc < c
      · rw [if_pos hbc, ih, if_pos (lt_of_lt_of_le hbc (le_max_left _ _))]
        by_cases hmr : c < maxCountOf rest
        · rw [if_pos hmr, max_eq_right hmr.le]
          rw [List.find?_cons_of_neg]
          simp only [beq_iff_eq]
          omega
        · rw [if_neg hmr, max_eq_left (not_lt.mp hmr)]
          rw [List.find?_cons_of_pos]
          · rfl
          · simp
      · rw [if_neg hbc, ih]
        have hcbc : c ≤ bc := not_lt.mp hbc
        by_cases hm : bc < maxCountOf rest
        · rw [if_pos hm, if_pos (lt_of_lt_of_le hm (le_max_right _ _)),
            max_eq_right (le_trans hcbc hm.le)]
          rw [List.find?_cons_of_neg]
          simp only [beq_iff_eq]
          omega
        · rw [if_neg hm, if_neg (not_lt.mpr (max_le hcbc (not_lt.mp hm)))]

theorem addToGroup_ne_nil (g : List (String × Nat)) (k : String) :
    addToGroup g k ≠ [] := by
  cases g with
  | nil => simp [addToGroup]
  | cons a rest =>
      obtain ⟨k', c⟩ := a
      simp only [addToGroup]
      split <;> simp

theorem addToGroup_pos (g : List (String × Nat)) (k : String)
    (h : ∀ e ∈ g, 0 < e.2) : ∀ e ∈ addToGroup g k, 0 < e.2 := by
  induction g with
  | nil =>
      intro e he
      simp [addToGroup] at he
      subst he
      simp
  | cons a rest ih =>
      obtain ⟨k', c⟩ := a
      intro e he
      simp only [addToGroup] at he
      by_cases hk : k' = k
      · rw [if_pos hk] at he
        rcases List.mem_cons.mp he with rfl | hmem
        · simp
        · exact h e (List.mem_cons_of_mem _ hmem)
      · rw [if_neg hk] at he
        rcases List.mem_cons.mp he with rfl | hmem
        · exact h _ (List.mem_cons_self _ _)
        · exact ih (fun x hx => h x (List.mem_cons_of_mem _ hx)) e hmem

theorem addToGroup_keys (g : List (String × Nat)) (k : String) :
    ∀ e ∈ addToGroup g k, e.1 = k ∨ ∃ e' ∈ g, e.1 = e'.1 := by
  induction g with
  | nil =>
      intro e he
      simp [addToGroup] at he
      subst he
      left
      rfl
  | cons a rest ih =>
      obtain ⟨k', c⟩ := a
      intro e he
      simp only [addToGroup] at he
      by_cases hk : k' = k
      · rw [if_pos hk] at he
        rcases List.mem_cons.mp he with rfl | hmem
        · left
          simpa using hk
        · right
          exact ⟨e, List.mem_cons_of_mem _ hmem, rfl⟩
      · rw [if_neg hk] at he
        rcases List.mem_cons.mp he with rfl | hmem
        · right
          exact ⟨(k', c), List.mem_cons_self _ _, rfl⟩
        · rcases ih e hmem with h1 | ⟨e', hmem', heq⟩
          · left
            exact h1
          · right
            exact ⟨e', List.mem_cons_of_mem _ hmem', heq⟩

theorem foldlGroup_ne_nil (ts : List Task) :
    ∀ acc : List (String × Nat), acc ≠ [] → ts.foldl dateGroupStep acc ≠ [] := by
  induction ts with
  | nil => intro acc h; simpa using h
  | cons t rest ih =>
      intro acc _
      rw [List.foldl_cons]
      exact ih _ (addToGroup_ne_nil _ _)

theorem groupByDate_ne_nil (ts : List Task) (h : ts ≠ []) : groupByDate ts ≠ [] := by
  cases ts with
  | nil => exact absurd rfl h
  | cons t rest =>
      unfold groupByDate
      rw [List.foldl_cons]
      exact foldlGroup_ne_nil rest _ (addToGroup_ne_nil _ _)

theorem foldlGroup_pos (ts : List Task) :
    ∀ acc, (∀ e ∈ acc, 0 < e.2) → ∀ e ∈ ts.foldl dateGroupStep acc, 0 < e.2 := by
  induction ts with
  | nil => intro acc h; simpa using h
  | cons t rest ih =>
      intro acc h
      rw [List.foldl_cons]
      exact ih _ (addToGroup_pos _ _ h)

theorem groupByDate_pos (ts : List Task) : ∀ e ∈ groupByDate ts, 0 < e.2 :=
  foldlGroup_pos ts [] (by simp)

theorem foldlGroup_keys (ts : List Task) :
    ∀ acc, ∀ e ∈ ts.foldl dateGroupStep acc,
      (∃ e' ∈ acc, e.1 = e'.1) ∨
      ∃ t ∈ ts, e.1 = momentFormatYMD t.completionDateTime := by
  induction ts with
  | nil =>
      intro acc e he
      left
      exact ⟨e, by simpa using he, rfl⟩
  | cons t rest ih =>
      intro acc e he
      rw [List.foldl_cons] at he
      rcases ih _ e he with ⟨e', hmem, heq⟩ | ⟨t', hmem, heq⟩
      · rcases addToGroup_keys acc _ e' hmem with h1 | ⟨e'', hmem'', heq''⟩
        · right
          exact ⟨t, List.mem_cons_self _ _, heq.trans h1⟩
        · left
          exact ⟨e'', hmem'', heq.trans heq''⟩
      · right
        exact ⟨t', List.mem_cons_of_mem _ hmem, heq⟩

theorem groupByDate_keys (ts : List Task) :
    ∀ e ∈ groupByDate ts, ∃ t ∈ ts, e.1 = momentFormatYMD t.completionDateTime := by
  intro e he
  rcases foldlGroup_keys ts [] e he with ⟨e', hmem, _⟩ | h
  · simp at hmem
  · exact h

theorem digitChar_isDigit (n : Nat) : (digitChar n).isDigit = true := by
  have h : n % 10 < 10 := Nat.mod_lt _ (by norm_num)
  have hall : ∀ r, r < 10 → (Char.ofNat (48 + r)).isDigit = true := by decide
  exact hall _ h

theorem isYMDString_formatYMD (y : Int) (m d : Nat) :
    isYMDString (formatYMD y m d) = true := by
  unfold isYMDString formatYMD pad4 pad2
  simp [digitChar_isDigit]

theorem isYMDString_dateKey (ts : Int) : isYMDString (dateKey ts) = true := by
  unfold dateKey
  exact isYMDString_formatYMD _ _ _

/-- C6: with at least one completed task, the returned date is the first
entry of the insertion-ordered grouping whose count equals the maximal count
(`find?` takes the first match, so an equal count never displaces the current
leader), and that count is maximal over all groups. -/
theorem getDateWithMostCompletedTasks_firstMax (s : Store) (u : User) (tl : TodoList)
    (h : getTodoListByUser s u.id = some tl)
    (hne : completedTasksOfList s tl.id ≠ []) :
    ∃ e : String × Nat,
      (groupByDate (completedTasksOfList s tl.id)).find?
          (fun x => x.2 == maxCountOf (groupByDate (completedTasksOfList s tl.id)))
        = some e ∧
      getDateWithMostCompletedTasks s u = some e.1 ∧
      e ∈ groupByDate (completedTasksOfList s tl.id) ∧
      e.2 = maxCountOf (groupByDate (completedTasksOfList s tl.id)) ∧
      (∀ x ∈ groupByDate (completedTasksOfList s tl.id), x.2 ≤ e.2) := by
  have hgne : groupByDate (completedTasksOfList s tl.id) ≠ [] :=
    groupByDate_ne_nil _ hne
  have hpos : ∀ e ∈ groupByDate (completedTasksOfList s tl.id), 0 < e.2 :=
    groupByDate_pos _
  obtain ⟨em, hmemm, heqm⟩ := maxCountOf_attained _ hgne
  have hfind : ((groupByDate (completedTasksOfList s tl.id)).find?
      (fun x => x.2 == maxCountOf (groupByDate (completedTasksOfList s tl.id)))).isSome := by
    rw [List.find?_isSome]
    exact ⟨em, hmemm, by simp [heqm]⟩
  obtain ⟨e, he⟩ := Option.isSome_iff_exists.mp hfind
  have he2 : e.2 = maxCountOf (groupByDate (completedTasksOfList s tl.id)) := by
    simpa using List.find?_some he
  refine ⟨e, he, ?_, List.mem_of_find?_eq_some he, he2, ?_⟩
  · simp only [getDateWithMostCompletedTasks, h]
    rw [maxScanGo_fst]
    rw [if_pos (lt_of_lt_of_le (hpos em hmemm) (heqm ▸ le_refl _)), he]
    rfl
  · intro x hx
    rw [he2]
    exact maxCountOf_le _ x hx

/-- C6 witness: completions grouped as 2024-01-02 twice then 2024-01-01
twice (in encounter order); the tie resolves to 2024-01-02, the first. -/
theorem getDateWithMostCompletedTasks_firstMax_witness :
    getDateWithMostCompletedTasks w6Store w6User = some "2024-01-02" := by
  obtain ⟨e, hfind, hres, _, _, _⟩ :=
    getDateWithMostCompletedTasks_firstMax w6Store w6User { id := 1, userId := 1 }
      (by decide) (by decide)
  have hv : (groupByDate (completedTasksOfList w6Store
        ({ id := 1, userId := 1 } : TodoList).id)).find?
      (fun x => x.2 == maxCountOf (groupByDate (completedTasksOfList w6Store
        ({ id := 1, userId := 1 } : TodoList).id))) = some ("2024-01-02", 2) := by
    decide
  rw [hfind] at hv
  rw [hres]
  injection hv with hv'
  rw [hv']

/-- C8: a non-null result is a `YYYY-MM-DD` date string, and the grouping key
depends only on the civil day of the timestamp, so the time-of-day is
discarded; the completed tasks are assumed to carry actual timestamps in the
four-digit-year range, as `moment` formats anything else differently. -/
theorem getDateWithMostCompletedTasks_shape (s : Store) (u : User) (tl : TodoList)
    (h : getTodoListByUser s u.id = some tl)
    (hvalid : ∀ t ∈ completedTasksOfList s tl.id,
      t.completionDateTime.any (fun c => 0 ≤ c && c < 253402300800000) = true)
    (str : String)
    (hres : getDateWithMostCompletedTasks s u = some str) :
    isYMDString str = true ∧
    ∀ t1 t2 : Int, Int.fdiv t1 msPerDay = Int.fdiv t2 msPerDay →
      dateKey t1 = dateKey t2 := by
  constructor
  · simp only [getDateWithMostCompletedTasks, h] at hres
    rw [maxScanGo_fst] at hres
    by_cases hlt : 0 < maxCountOf (groupByDate (completedTasksOfList s tl.id))
    · rw [if_pos hlt] at hres
      rcases hfind : (groupByDate (completedTasksOfList s tl.id)).find?
          (fun e => e.2 == maxCountOf (groupByDate (completedTasksOfList s tl.id)))
        with _ | e
      · rw [hfind] at hres
        simp at hres
      · rw [hfind] at hres
        simp only [Option.map_some'] at hres
        have hmem : e ∈ groupByDate (completedTasksOfList s tl.id) :=
          List.mem_of_find?_eq_some hfind
        obtain ⟨t, htmem, hkey⟩ := groupByDate_keys _ e hmem
        have hv := hvalid t htmem
        cases hc : t.completionDateTime with
        | none =>
            rw [hc] at hv
            simp [Option.any] at hv
        | some c =>
            rw [hc] at hkey
            have hstr : str = e.1 := by
              injection hres with hres'
              exact hres'.symm
            rw [hstr, hkey]
            exact isYMDString_dateKey c
    · rw [if_neg hlt] at hres
      simp at hres
  · intro t1 t2 h12
    unfold dateKey
    rw [h12]

/-- C8 witness: one completed task at 2024-01-01 01:00 UTC; the result is
the date-only string for that day. -/
theorem getDateWithMostCompletedTasks_shape_witness :
    isYMDString "2024-01-01" = true :=
  (getDateWithMostCompletedTasks_shape w8Store w8User { id := 1, userId := 1 }
    (by decide) (by decide) "2024-01-01" (by decide)).1

/-- C10: the zero-days guard tests equality with 0 only, so an account whose
`createdAt` lies more than one whole day in the future yields a negative day
difference and `getAvgTasksPerDay` returns a negative value: here the
difference is -2 days, one completed task, and the result is
floor (1 / -2) = -1 < 0. -/
theorem getAvgTasksPerDay_negative_example :
    daysDiff 0 negUser.createdAt = -2 ∧
    daysDiff 0 negUser.createdAt ≠ 0 ∧
    getAvgTasksPerDay negStore 0 negUser = -1 := by
  decide

end TaskManager
